import Mathlib

/-!
Verification of the optimization-model construction and result-extraction
layer of `pyeplan/investoper.py` (class `inosys`).

The Pyomo model built by `inosys.solve` is embedded shallowly: the loaded
tables become functions from row indices to record structures, a candidate
solution assigns a rational value to every decision variable, each Pyomo
rule function becomes a `Prop` of the same name, and `Feasible` bundles the
variable-domain conditions and every constraint of the built model.  The
pure helpers `pyomo2dfinv` / `pyomo2dfopr` and the load / epilogue / result
accessor code paths are embedded as executable functions.
-/

namespace PyEPlan

/-- One row of a generator / solar / wind table (`cgen`, `egen`, `csol`,
`esol`, `cwin`, `ewin`) as held by `inosys` after loading. -/
structure UnitRow where
  bus : ℕ
  pmin : ℚ
  pmax : ℚ
  qmin : ℚ
  qmax : ℚ
  icost : ℚ
  ocost : ℚ

/-- One row of the battery table `cbat`. -/
structure BatRow where
  bus : ℕ
  pmin : ℚ
  pmax : ℚ
  qmin : ℚ
  qmax : ℚ
  emin : ℚ
  emax : ℚ
  eini : ℚ
  ec : ℚ
  ed : ℚ
  icost : ℚ
  ocost : ℚ

/-- One row of the line table `elin`: endpoints, in-service flag `ini`,
resistance / reactance, thermal limits. -/
structure LineRow where
  fbus : ℕ
  tbus : ℕ
  ini : ℚ
  res : ℚ
  rea : ℚ
  pmax : ℚ
  qmax : ℚ

/-- The data an `inosys` object carries into `solve`: the loaded tables
(as row-index functions), the component counts, and the cost / network
parameters set in `__init__`. -/
structure InoData where
  ncg : ℕ
  neg : ℕ
  ncs : ℕ
  nes : ℕ
  ncw : ℕ
  new : ℕ
  ncb : ℕ
  nel : ℕ
  nbb : ℕ
  ntt : ℕ
  noo : ℕ
  cgen : ℕ → UnitRow
  egen : ℕ → UnitRow
  csol : ℕ → UnitRow
  esol : ℕ → UnitRow
  cwin : ℕ → UnitRow
  ewin : ℕ → UnitRow
  cbat : ℕ → BatRow
  elin : ℕ → LineRow
  pdem : ℕ → ℕ → ℚ
  qdem : ℕ → ℕ → ℚ
  prep : ℕ → ℕ → ℚ
  qrep : ℕ → ℕ → ℚ
  psol : ℕ → ℕ → ℚ
  pwin : ℕ → ℕ → ℚ
  dtim : ℕ → ℚ
  cds : ℚ
  css : ℚ
  cws : ℚ
  sb : ℚ
  sf : ℚ
  ref_bus : ℕ
  vmin : ℚ
  vmax : ℚ
  phase : ℚ

/-- The flags of `inosys.solve` that shape the variable domains. -/
structure Cfg where
  invest : Bool
  onlyopr : Bool
  commit : Bool

/-- An assignment to every decision variable of the built model. -/
structure Sol where
  z : ℚ
  opr : ℚ
  inv : ℚ
  she : ℚ
  pcg : ℕ → ℕ → ℕ → ℚ
  peg : ℕ → ℕ → ℕ → ℚ
  qcg : ℕ → ℕ → ℕ → ℚ
  qeg : ℕ → ℕ → ℕ → ℚ
  pcs : ℕ → ℕ → ℕ → ℚ
  pes : ℕ → ℕ → ℕ → ℚ
  qcs : ℕ → ℕ → ℕ → ℚ
  qes : ℕ → ℕ → ℕ → ℚ
  pcw : ℕ → ℕ → ℕ → ℚ
  pew : ℕ → ℕ → ℕ → ℚ
  qcw : ℕ → ℕ → ℕ → ℚ
  qew : ℕ → ℕ → ℕ → ℚ
  pbc : ℕ → ℕ → ℕ → ℚ
  pbd : ℕ → ℕ → ℕ → ℚ
  qcd : ℕ → ℕ → ℕ → ℚ
  pds : ℕ → ℕ → ℕ → ℚ
  pss : ℕ → ℕ → ℕ → ℚ
  pws : ℕ → ℕ → ℕ → ℚ
  pel : ℕ → ℕ → ℕ → ℚ
  qel : ℕ → ℕ → ℕ → ℚ
  vol : ℕ → ℕ → ℕ → ℚ
  cu : ℕ → ℕ → ℕ → ℚ
  eu : ℕ → ℕ → ℕ → ℚ
  xg : ℕ → ℚ
  xs : ℕ → ℚ
  xw : ℕ → ℚ
  xb : ℕ → ℚ

/-- Pyomo `Binary` domain. -/
def binaryDom (q : ℚ) : Prop := q = 0 ∨ q = 1

/-- Pyomo `NonNegativeReals` with `bounds=(0,1)`. -/
def unitBoxDom (q : ℚ) : Prop := 0 ≤ q ∧ q ≤ 1

/-- Domain of the investment variables `xg`, `xs`, `xw`, `xb`: with
`onlyopr` they get `bounds=(0,0)`, otherwise `Binary` when `invest` and
relaxed `[0,1]` when not. -/
def invDom (c : Cfg) (q : ℚ) : Prop :=
  if c.onlyopr = true then q = 0
  else if c.invest = true then binaryDom q
  else unitBoxDom q

/-- Domain of the commitment variables `cu`, `eu`: `Binary` when `commit`,
otherwise `NonNegativeReals`. -/
def commitDom (c : Cfg) (q : ℚ) : Prop :=
  if c.commit = true then binaryDom q else 0 ≤ q

/-- Domain of the demand-shed variable `pds`: `Binary` when `commit`,
otherwise `NonNegativeReals` with `bounds=(0,1)`. -/
def shedDom (c : Cfg) (q : ℚ) : Prop :=
  if c.commit = true then binaryDom q else unitBoxDom q

/-- Source `cost_def_rule`: `z == inv + opr`. -/
def cost_def_rule (s : Sol) : Prop := s.z = s.inv + s.opr

/-- Source `inv_cost_def_rule`: investment cost over the four candidate
unit types. -/
def inv_cost_def_rule (d : InoData) (s : Sol) : Prop :=
  s.inv =
    d.sf * (∑ cg ∈ Finset.range d.ncg, (d.cgen cg).icost * (d.cgen cg).pmax * s.xg cg)
    + d.sf * (∑ cs ∈ Finset.range d.ncs, (d.csol cs).icost * (d.csol cs).pmax * s.xs cs)
    + d.sf * (∑ cw ∈ Finset.range d.ncw, (d.cwin cw).icost * (d.cwin cw).pmax * s.xw cw)
    + d.sf * (∑ cb ∈ Finset.range d.ncb, (d.cbat cb).icost * (d.cbat cb).pmax * s.xb cb)

/-- Source `opr_cost_def_rule`: duration-weighted generation cost of the six
dispatchable types plus the demand-shed and solar / wind curtailment
penalty terms. -/
def opr_cost_def_rule (d : InoData) (s : Sol) : Prop :=
  s.opr =
    d.sf * d.sb *
      ((∑ cg ∈ Finset.range d.ncg, ∑ tt ∈ Finset.range d.ntt, ∑ oo ∈ Finset.range d.noo,
          d.dtim oo * (d.cgen cg).ocost * s.pcg cg tt oo)
       + (∑ eg ∈ Finset.range d.neg, ∑ tt ∈ Finset.range d.ntt, ∑ oo ∈ Finset.range d.noo,
          d.dtim oo * (d.egen eg).ocost * s.peg eg tt oo)
       + (∑ cs ∈ Finset.range d.ncs, ∑ tt ∈ Finset.range d.ntt, ∑ oo ∈ Finset.range d.noo,
          d.dtim oo * (d.csol cs).ocost * s.pcs cs tt oo)
       + (∑ es ∈ Finset.range d.nes, ∑ tt ∈ Finset.range d.ntt, ∑ oo ∈ Finset.range d.noo,
          d.dtim oo * (d.esol es).ocost * s.pes es tt oo)
       + (∑ cw ∈ Finset.range d.ncw, ∑ tt ∈ Finset.range d.ntt, ∑ oo ∈ Finset.range d.noo,
          d.dtim oo * (d.cwin cw).ocost * s.pcw cw tt oo)
       + (∑ ew ∈ Finset.range d.new, ∑ tt ∈ Finset.range d.ntt, ∑ oo ∈ Finset.range d.noo,
          d.dtim oo * (d.ewin ew).ocost * s.pew ew tt oo)
       + (∑ bb ∈ Finset.range d.nbb, ∑ tt ∈ Finset.range d.ntt, ∑ oo ∈ Finset.range d.noo,
          d.dtim oo * d.cds * d.pdem tt bb * d.prep tt oo * s.pds bb tt oo)
       + (∑ bb ∈ Finset.range d.nbb, ∑ tt ∈ Finset.range d.ntt, ∑ oo ∈ Finset.range d.noo,
          d.dtim oo * d.css * s.pss bb tt oo)
       + (∑ bb ∈ Finset.range d.nbb, ∑ tt ∈ Finset.range d.ntt, ∑ oo ∈ Finset.range d.noo,
          d.dtim oo * d.cws * s.pws bb tt oo))

/-- Source `she_cost_def_rule`: the shedding-cost subtotal. -/
def she_cost_def_rule (d : InoData) (s : Sol) : Prop :=
  s.she =
    d.sf * d.sb *
      ((∑ bb ∈ Finset.range d.nbb, ∑ tt ∈ Finset.range d.ntt, ∑ oo ∈ Finset.range d.noo,
          d.dtim oo * d.cds * d.pdem tt bb * d.prep tt oo * s.pds bb tt oo)
       + (∑ bb ∈ Finset.range d.nbb, ∑ tt ∈ Finset.range d.ntt, ∑ oo ∈ Finset.range d.noo,
          d.dtim oo * d.css * s.pss bb tt oo)
       + (∑ bb ∈ Finset.range d.nbb, ∑ tt ∈ Finset.range d.ntt, ∑ oo ∈ Finset.range d.noo,
          d.dtim oo * d.cws * s.pws bb tt oo))

/-- Source `act_bal_rule`: nodal active power balance. -/
def act_bal_rule (d : InoData) (s : Sol) (bb tt oo : ℕ) : Prop :=
  (1 / d.phase) * (∑ cg ∈ Finset.range d.ncg, if (d.cgen cg).bus = bb then s.pcg cg tt oo else 0)
  + (1 / d.phase) * (∑ eg ∈ Finset.range d.neg, if (d.egen eg).bus = bb then s.peg eg tt oo else 0)
  + (1 / d.phase) * (∑ cs ∈ Finset.range d.ncs, if (d.csol cs).bus = bb then s.pcs cs tt oo else 0)
  + (1 / d.phase) * (∑ es ∈ Finset.range d.nes, if (d.esol es).bus = bb then s.pes es tt oo else 0)
  + (1 / d.phase) * (∑ cw ∈ Finset.range d.ncw, if (d.cwin cw).bus = bb then s.pcw cw tt oo else 0)
  + (1 / d.phase) * (∑ ew ∈ Finset.range d.new, if (d.ewin ew).bus = bb then s.pew ew tt oo else 0)
  + (1 / d.phase) * (∑ cb ∈ Finset.range d.ncb, if (d.cbat cb).bus = bb then s.pbd cb tt oo else 0)
  - (1 / d.phase) * (∑ cb ∈ Finset.range d.ncb, if (d.cbat cb).bus = bb then s.pbc cb tt oo else 0)
  + (∑ el ∈ Finset.range d.nel, if (d.elin el).tbus = bb then s.pel el tt oo else 0)
  = (∑ el ∈ Finset.range d.nel, if (d.elin el).fbus = bb then s.pel el tt oo else 0)
    + d.pdem tt bb * d.prep tt oo * (1 / d.phase) * (1 - s.pds bb tt oo)
    + s.pss bb tt oo + s.pws bb tt oo

/-- Source `rea_bal_rule`: nodal reactive power balance. -/
def rea_bal_rule (d : InoData) (s : Sol) (bb tt oo : ℕ) : Prop :=
  (1 / d.phase) * (∑ cg ∈ Finset.range d.ncg, if (d.cgen cg).bus = bb then s.qcg cg tt oo else 0)
  + (1 / d.phase) * (∑ eg ∈ Finset.range d.neg, if (d.egen eg).bus = bb then s.qeg eg tt oo else 0)
  + (1 / d.phase) * (∑ cs ∈ Finset.range d.ncs, if (d.csol cs).bus = bb then s.qcs cs tt oo else 0)
  + (1 / d.phase) * (∑ es ∈ Finset.range d.nes, if (d.esol es).bus = bb then s.qes es tt oo else 0)
  + (1 / d.phase) * (∑ cw ∈ Finset.range d.ncw, if (d.cwin cw).bus = bb then s.qcw cw tt oo else 0)
  + (1 / d.phase) * (∑ ew ∈ Finset.range d.new, if (d.ewin ew).bus = bb then s.qew ew tt oo else 0)
  + (1 / d.phase) * (∑ cb ∈ Finset.range d.ncb, if (d.cbat cb).bus = bb then s.qcd cb tt oo else 0)
  + (∑ el ∈ Finset.range d.nel, if (d.elin el).tbus = bb then s.qel el tt oo else 0)
  = (∑ el ∈ Finset.range d.nel, if (d.elin el).fbus = bb then s.qel el tt oo else 0)
    + d.qdem tt bb * d.qrep tt oo * (1 / d.phase) * (1 - s.pds bb tt oo)

/-- Source `min_act_cgen_rule`. -/
def min_act_cgen_rule (d : InoData) (s : Sol) (cg tt oo : ℕ) : Prop :=
  s.pcg cg tt oo ≥ s.cu cg tt oo * (d.cgen cg).pmin

/-- Source `min_act_egen_rule`. -/
def min_act_egen_rule (d : InoData) (s : Sol) (eg tt oo : ℕ) : Prop :=
  s.peg eg tt oo ≥ s.eu eg tt oo * (d.egen eg).pmin

/-- Source `min_act_csol_rule`. -/
def min_act_csol_rule (d : InoData) (s : Sol) (cs tt oo : ℕ) : Prop :=
  s.pcs cs tt oo ≥ s.xs cs * (d.csol cs).pmin

/-- Source `min_act_esol_rule`. -/
def min_act_esol_rule (d : InoData) (s : Sol) (es tt oo : ℕ) : Prop :=
  s.pes es tt oo ≥ (d.esol es).pmin

/-- Source `min_act_cwin_rule`. -/
def min_act_cwin_rule (d : InoData) (s : Sol) (cw tt oo : ℕ) : Prop :=
  s.pcw cw tt oo ≥ s.xw cw * (d.cwin cw).pmin

/-- Source `min_act_ewin_rule`. -/
def min_act_ewin_rule (d : InoData) (s : Sol) (ew tt oo : ℕ) : Prop :=
  s.pew ew tt oo ≥ (d.ewin ew).pmin

/-- Source `min_act_cbat_rule`. -/
def min_act_cbat_rule (d : InoData) (s : Sol) (cb tt oo : ℕ) : Prop :=
  s.pbc cb tt oo ≥ s.xb cb * (d.cbat cb).pmin

/-- Source `min_act_dbat_rule`. -/
def min_act_dbat_rule (d : InoData) (s : Sol) (cb tt oo : ℕ) : Prop :=
  s.pbd cb tt oo ≥ s.xb cb * (d.cbat cb).pmin

/-- Source `max_act_cgen_rule`. -/
def max_act_cgen_rule (d : InoData) (s : Sol) (cg tt oo : ℕ) : Prop :=
  s.pcg cg tt oo ≤ s.cu cg tt oo * (d.cgen cg).pmax

/-- Source `max_act_egen_rule`. -/
def max_act_egen_rule (d : InoData) (s : Sol) (eg tt oo : ℕ) : Prop :=
  s.peg eg tt oo ≤ s.eu eg tt oo * (d.egen eg).pmax

/-- Source `max_act_csol_rule`: candidate solar gated by `xs` times the
per-(period,scenario) availability `psol`. -/
def max_act_csol_rule (d : InoData) (s : Sol) (cs tt oo : ℕ) : Prop :=
  s.pcs cs tt oo ≤ s.xs cs * d.psol tt oo

/-- Source `max_act_esol_rule`. -/
def max_act_esol_rule (d : InoData) (s : Sol) (es tt oo : ℕ) : Prop :=
  s.pes es tt oo ≤ d.psol tt oo

/-- Source `max_act_cwin_rule`. -/
def max_act_cwin_rule (d : InoData) (s : Sol) (cw tt oo : ℕ) : Prop :=
  s.pcw cw tt oo ≤ s.xw cw * d.pwin tt oo

/-- Source `max_act_ewin_rule`. -/
def max_act_ewin_rule (d : InoData) (s : Sol) (ew tt oo : ℕ) : Prop :=
  s.pew ew tt oo ≤ d.pwin tt oo

/-- Source `max_act_cbat_rule`. -/
def max_act_cbat_rule (d : InoData) (s : Sol) (cb tt oo : ℕ) : Prop :=
  s.pbc cb tt oo ≤ s.xb cb * (d.cbat cb).pmax

/-- Source `max_act_dbat_rule`. -/
def max_act_dbat_rule (d : InoData) (s : Sol) (cb tt oo : ℕ) : Prop :=
  s.pbd cb tt oo ≤ s.xb cb * (d.cbat cb).pmax

/-- Source `min_rea_cgen_rule`. -/
def min_rea_cgen_rule (d : InoData) (s : Sol) (cg tt oo : ℕ) : Prop :=
  s.qcg cg tt oo ≥ s.cu cg tt oo * (d.cgen cg).qmin

/-- Source `min_rea_egen_rule`. -/
def min_rea_egen_rule (d : InoData) (s : Sol) (eg tt oo : ℕ) : Prop :=
  s.qeg eg tt oo ≥ s.eu eg tt oo * (d.egen eg).qmin

/-- Source `min_rea_csol_rule`. -/
def min_rea_csol_rule (d : InoData) (s : Sol) (cs tt oo : ℕ) : Prop :=
  s.qcs cs tt oo ≥ s.xs cs * (d.csol cs).qmin

/-- Source `min_rea_esol_rule`. -/
def min_rea_esol_rule (d : InoData) (s : Sol) (es tt oo : ℕ) : Prop :=
  s.qes es tt oo ≥ (d.esol es).qmin

/-- Source `min_rea_cwin_rule`. -/
def min_rea_cwin_rule (d : InoData) (s : Sol) (cw tt oo : ℕ) : Prop :=
  s.qcw cw tt oo ≥ s.xw cw * (d.cwin cw).qmin

/-- Source `min_rea_ewin_rule`. -/
def min_rea_ewin_rule (d : InoData) (s : Sol) (ew tt oo : ℕ) : Prop :=
  s.qew ew tt oo ≥ (d.ewin ew).qmin

/-- Source `min_rea_bat_rule`. -/
def min_rea_bat_rule (d : InoData) (s : Sol) (cb tt oo : ℕ) : Prop :=
  s.qcd cb tt oo ≥ s.xb cb * (d.cbat cb).qmin

/-- Source `max_rea_cgen_rule`. -/
def max_rea_cgen_rule (d : InoData) (s : Sol) (cg tt oo : ℕ) : Prop :=
  s.qcg cg tt oo ≤ s.cu cg tt oo * (d.cgen cg).qmax

/-- Source `max_rea_egen_rule`. -/
def max_rea_egen_rule (d : InoData) (s : Sol) (eg tt oo : ℕ) : Prop :=
  s.qeg eg tt oo ≤ s.eu eg tt oo * (d.egen eg).qmax

/-- Source `max_rea_csol_rule`. -/
def max_rea_csol_rule (d : InoData) (s : Sol) (cs tt oo : ℕ) : Prop :=
  s.qcs cs tt oo ≤ s.xs cs * (d.csol cs).qmax

/-- Source `max_rea_esol_rule`. -/
def max_rea_esol_rule (d : InoData) (s : Sol) (es tt oo : ℕ) : Prop :=
  s.qes es tt oo ≤ (d.esol es).qmax

/-- Source `max_rea_cwin_rule`. -/
def max_rea_cwin_rule (d : InoData) (s : Sol) (cw tt oo : ℕ) : Prop :=
  s.qcw cw tt oo ≤ s.xw cw * (d.cwin cw).qmax

/-- Source `max_rea_ewin_rule`. -/
def max_rea_ewin_rule (d : InoData) (s : Sol) (ew tt oo : ℕ) : Prop :=
  s.qew ew tt oo ≤ (d.ewin ew).qmax

/-- Source `max_rea_bat_rule`. -/
def max_rea_bat_rule (d : InoData) (s : Sol) (cb tt oo : ℕ) : Prop :=
  s.qcd cb tt oo ≤ s.xb cb * (d.cbat cb).qmax

/-- Source `min_eng_bat_rule`: running-sum state of charge stays above
`xb * emin`; the sums run over all periods `t` with `t <= tt`. -/
def min_eng_bat_rule (d : InoData) (s : Sol) (cb tt oo : ℕ) : Prop :=
  (d.cbat cb).eini * s.xb cb
  + (∑ t ∈ Finset.range d.ntt, if t ≤ tt then s.pbc cb t oo * (d.cbat cb).ec else 0)
  - (∑ t ∈ Finset.range d.ntt, if t ≤ tt then s.pbd cb t oo / (d.cbat cb).ed else 0)
  ≥ s.xb cb * (d.cbat cb).emin

/-- Source `max_eng_bat_rule`: running-sum state of charge stays below
`xb * emax`. -/
def max_eng_bat_rule (d : InoData) (s : Sol) (cb tt oo : ℕ) : Prop :=
  (d.cbat cb).eini * s.xb cb
  + (∑ t ∈ Finset.range d.ntt, if t ≤ tt then s.pbc cb t oo * (d.cbat cb).ec else 0)
  - (∑ t ∈ Finset.range d.ntt, if t ≤ tt then s.pbd cb t oo / (d.cbat cb).ed else 0)
  ≤ s.xb cb * (d.cbat cb).emax

/-- Source `cop_eng_bat_rule`: per battery and scenario, total charge
energy equals total discharge energy over the whole horizon. -/
def cop_eng_bat_rule (d : InoData) (s : Sol) (cb oo : ℕ) : Prop :=
  (∑ t ∈ Finset.range d.ntt, s.pbc cb t oo * (d.cbat cb).ec)
  = ∑ t ∈ Finset.range d.ntt, s.pbd cb t oo / (d.cbat cb).ed

/-- Source `max_sol_shed_rule`: solar curtailment at a bus equals available
minus dispatched solar there. -/
def max_sol_shed_rule (d : InoData) (s : Sol) (bb tt oo : ℕ) : Prop :=
  s.pss bb tt oo =
    ((∑ cs ∈ Finset.range d.ncs, if (d.csol cs).bus = bb then s.xs cs * d.psol tt oo else 0)
     + (∑ es ∈ Finset.range d.nes, if (d.esol es).bus = bb then d.psol tt oo else 0))
    - ((∑ cs ∈ Finset.range d.ncs, if (d.csol cs).bus = bb then s.pcs cs tt oo else 0)
       + (∑ es ∈ Finset.range d.nes, if (d.esol es).bus = bb then s.pes es tt oo else 0))

/-- Source `max_win_shed_rule`: wind curtailment at a bus equals available
minus dispatched wind there. -/
def max_win_shed_rule (d : InoData) (s : Sol) (bb tt oo : ℕ) : Prop :=
  s.pws bb tt oo =
    ((∑ cw ∈ Finset.range d.ncw, if (d.cwin cw).bus = bb then s.xw cw * d.pwin tt oo else 0)
     + (∑ ew ∈ Finset.range d.new, if (d.ewin ew).bus = bb then d.pwin tt oo else 0))
    - ((∑ cw ∈ Finset.range d.ncw, if (d.cwin cw).bus = bb then s.pcw cw tt oo else 0)
       + (∑ ew ∈ Finset.range d.new, if (d.ewin ew).bus = bb then s.pew ew tt oo else 0))

/-- Source `flow_rule`: linearized voltage-drop equation, imposed on every
line regardless of its in-service flag. -/
def flow_rule (d : InoData) (s : Sol) (el tt oo : ℕ) : Prop :=
  s.vol (d.elin el).fbus tt oo - s.vol (d.elin el).tbus tt oo =
    (d.elin el).res * s.pel el tt oo + (d.elin el).rea * s.qel el tt oo

/-- Source `max_act_eflow_rule`. -/
def max_act_eflow_rule (d : InoData) (s : Sol) (el tt oo : ℕ) : Prop :=
  s.pel el tt oo ≤ (d.elin el).pmax * (d.elin el).ini

/-- Source `min_act_eflow_rule`. -/
def min_act_eflow_rule (d : InoData) (s : Sol) (el tt oo : ℕ) : Prop :=
  s.pel el tt oo ≥ -(d.elin el).pmax * (d.elin el).ini

/-- Source `max_rea_eflow_rule`. -/
def max_rea_eflow_rule (d : InoData) (s : Sol) (el tt oo : ℕ) : Prop :=
  s.qel el tt oo ≤ (d.elin el).qmax * (d.elin el).ini

/-- Source `min_rea_eflow_rule`. -/
def min_rea_eflow_rule (d : InoData) (s : Sol) (el tt oo : ℕ) : Prop :=
  s.qel el tt oo ≥ -(d.elin el).qmax * (d.elin el).ini

/-- Source `vol_ref_rule`: reference-bus voltage fixed to 1. -/
def vol_ref_rule (d : InoData) (s : Sol) (tt oo : ℕ) : Prop :=
  (∑ bb ∈ Finset.range d.nbb, if bb = d.ref_bus then s.vol bb tt oo else 0) = 1

/-- Source `inv_stat_rule`: commitment never exceeds investment status. -/
def inv_stat_rule (s : Sol) (cg tt oo : ℕ) : Prop :=
  s.cu cg tt oo ≤ s.xg cg

/-- Source `inv_bat_rule`: battery investments bounded by solar plus wind
investments. -/
def inv_bat_rule (d : InoData) (s : Sol) : Prop :=
  (∑ cb ∈ Finset.range d.ncb, s.xb cb)
  ≤ (∑ cs ∈ Finset.range d.ncs, s.xs cs) + ∑ cw ∈ Finset.range d.ncw, s.xw cw

/-- A feasible solution of the model `inosys.solve` builds: the variable
domains of the `pe.Var` declarations together with every constraint, each
quantified over its Pyomo index sets. -/
structure Feasible (d : InoData) (c : Cfg) (s : Sol) : Prop where
  dom_pcg : ∀ cg < d.ncg, ∀ tt < d.ntt, ∀ oo < d.noo, 0 ≤ s.pcg cg tt oo
  dom_peg : ∀ eg < d.neg, ∀ tt < d.ntt, ∀ oo < d.noo, 0 ≤ s.peg eg tt oo
  dom_qcg : ∀ cg < d.ncg, ∀ tt < d.ntt, ∀ oo < d.noo, 0 ≤ s.qcg cg tt oo
  dom_qeg : ∀ eg < d.neg, ∀ tt < d.ntt, ∀ oo < d.noo, 0 ≤ s.qeg eg tt oo
  dom_pcs : ∀ cs < d.ncs, ∀ tt < d.ntt, ∀ oo < d.noo, 0 ≤ s.pcs cs tt oo
  dom_pes : ∀ es < d.nes, ∀ tt < d.ntt, ∀ oo < d.noo, 0 ≤ s.pes es tt oo
  dom_pcw : ∀ cw < d.ncw, ∀ tt < d.ntt, ∀ oo < d.noo, 0 ≤ s.pcw cw tt oo
  dom_pew : ∀ ew < d.new, ∀ tt < d.ntt, ∀ oo < d.noo, 0 ≤ s.pew ew tt oo
  dom_pbc : ∀ cb < d.ncb, ∀ tt < d.ntt, ∀ oo < d.noo, 0 ≤ s.pbc cb tt oo
  dom_pbd : ∀ cb < d.ncb, ∀ tt < d.ntt, ∀ oo < d.noo, 0 ≤ s.pbd cb tt oo
  dom_pds : ∀ bb < d.nbb, ∀ tt < d.ntt, ∀ oo < d.noo, shedDom c (s.pds bb tt oo)
  dom_pss : ∀ bb < d.nbb, ∀ tt < d.ntt, ∀ oo < d.noo, 0 ≤ s.pss bb tt oo
  dom_pws : ∀ bb < d.nbb, ∀ tt < d.ntt, ∀ oo < d.noo, 0 ≤ s.pws bb tt oo
  dom_vol : ∀ bb < d.nbb, ∀ tt < d.ntt, ∀ oo < d.noo,
    d.vmin ≤ s.vol bb tt oo ∧ s.vol bb tt oo ≤ d.vmax
  dom_cu : ∀ cg < d.ncg, ∀ tt < d.ntt, ∀ oo < d.noo, commitDom c (s.cu cg tt oo)
  dom_eu : ∀ eg < d.neg, ∀ tt < d.ntt, ∀ oo < d.noo, commitDom c (s.eu eg tt oo)
  dom_xg : ∀ cg < d.ncg, invDom c (s.xg cg)
  dom_xs : ∀ cs < d.ncs, invDom c (s.xs cs)
  dom_xw : ∀ cw < d.ncw, invDom c (s.xw cw)
  dom_xb : ∀ cb < d.ncb, invDom c (s.xb cb)
  cost_def : cost_def_rule s
  inv_cost_def : inv_cost_def_rule d s
  opr_cost_def : opr_cost_def_rule d s
  she_cost_def : she_cost_def_rule d s
  act_bal : ∀ bb < d.nbb, ∀ tt < d.ntt, ∀ oo < d.noo, act_bal_rule d s bb tt oo
  rea_bal : ∀ bb < d.nbb, ∀ tt < d.ntt, ∀ oo < d.noo, rea_bal_rule d s bb tt oo
  min_act_cgen : ∀ cg < d.ncg, ∀ tt < d.ntt, ∀ oo < d.noo, min_act_cgen_rule d s cg tt oo
  min_act_egen : ∀ eg < d.neg, ∀ tt < d.ntt, ∀ oo < d.noo, min_act_egen_rule d s eg tt oo
  min_act_csol : ∀ cs < d.ncs, ∀ tt < d.ntt, ∀ oo < d.noo, min_act_csol_rule d s cs tt oo
  min_act_esol : ∀ es < d.nes, ∀ tt < d.ntt, ∀ oo < d.noo, min_act_esol_rule d s es tt oo
  min_act_cwin : ∀ cw < d.ncw, ∀ tt < d.ntt, ∀ oo < d.noo, min_act_cwin_rule d s cw tt oo
  min_act_ewin : ∀ ew < d.new, ∀ tt < d.ntt, ∀ oo < d.noo, min_act_ewin_rule d s ew tt oo
  min_act_cbat : ∀ cb < d.ncb, ∀ tt < d.ntt, ∀ oo < d.noo, min_act_cbat_rule d s cb tt oo
  min_act_dbat : ∀ cb < d.ncb, ∀ tt < d.ntt, ∀ oo < d.noo, min_act_dbat_rule d s cb tt oo
  max_act_cgen : ∀ cg < d.ncg, ∀ tt < d.ntt, ∀ oo < d.noo, max_act_cgen_rule d s cg tt oo
  max_act_egen : ∀ eg < d.neg, ∀ tt < d.ntt, ∀ oo < d.noo, max_act_egen_rule d s eg tt oo
  max_act_csol : ∀ cs < d.ncs, ∀ tt < d.ntt, ∀ oo < d.noo, max_act_csol_rule d s cs tt oo
  max_act_esol : ∀ es < d.nes, ∀ tt < d.ntt, ∀ oo < d.noo, max_act_esol_rule d s es tt oo
  max_act_cwin : ∀ cw < d.ncw, ∀ tt < d.ntt, ∀ oo < d.noo, max_act_cwin_rule d s cw tt oo
  max_act_ewin : ∀ ew < d.new, ∀ tt < d.ntt, ∀ oo < d.noo, max_act_ewin_rule d s ew tt oo
  max_act_cbat : ∀ cb < d.ncb, ∀ tt < d.ntt, ∀ oo < d.noo, max_act_cbat_rule d s cb tt oo
  max_act_dbat : ∀ cb < d.ncb, ∀ tt < d.ntt, ∀ oo < d.noo, max_act_dbat_rule d s cb tt oo
  min_rea_cgen : ∀ cg < d.ncg, ∀ tt < d.ntt, ∀ oo < d.noo, min_rea_cgen_rule d s cg tt oo
  min_rea_egen : ∀ eg < d.neg, ∀ tt < d.ntt, ∀ oo < d.noo, min_rea_egen_rule d s eg tt oo
  min_rea_csol : ∀ cs < d.ncs, ∀ tt < d.ntt, ∀ oo < d.noo, min_rea_csol_rule d s cs tt oo
  min_rea_esol : ∀ es < d.nes, ∀ tt < d.ntt, ∀ oo < d.noo, min_rea_esol_rule d s es tt oo
  min_rea_cwin : ∀ cw < d.ncw, ∀ tt < d.ntt, ∀ oo < d.noo, min_rea_cwin_rule d s cw tt oo
  min_rea_ewin : ∀ ew < d.new, ∀ tt < d.ntt, ∀ oo < d.noo, min_rea_ewin_rule d s ew tt oo
  min_rea_bat : ∀ cb < d.ncb, ∀ tt < d.ntt, ∀ oo < d.noo, min_rea_bat_rule d s cb tt oo
  max_rea_cgen : ∀ cg < d.ncg, ∀ tt < d.ntt, ∀ oo < d.noo, max_rea_cgen_rule d s cg tt oo
  max_rea_egen : ∀ eg < d.neg, ∀ tt < d.ntt, ∀ oo < d.noo, max_rea_egen_rule d s eg tt oo
  max_rea_csol : ∀ cs < d.ncs, ∀ tt < d.ntt, ∀ oo < d.noo, max_rea_csol_rule d s cs tt oo
  max_rea_esol : ∀ es < d.nes, ∀ tt < d.ntt, ∀ oo < d.noo, max_rea_esol_rule d s es tt oo
  max_rea_cwin : ∀ cw < d.ncw, ∀ tt < d.ntt, ∀ oo < d.noo, max_rea_cwin_rule d s cw tt oo
  max_rea_ewin : ∀ ew < d.new, ∀ tt < d.ntt, ∀ oo < d.noo, max_rea_ewin_rule d s ew tt oo
  max_rea_bat : ∀ cb < d.ncb, ∀ tt < d.ntt, ∀ oo < d.noo, max_rea_bat_rule d s cb tt oo
  min_eng_bat : ∀ cb < d.ncb, ∀ tt < d.ntt, ∀ oo < d.noo, min_eng_bat_rule d s cb tt oo
  max_eng_bat : ∀ cb < d.ncb, ∀ tt < d.ntt, ∀ oo < d.noo, max_eng_bat_rule d s cb tt oo
  cop_eng_bat : ∀ cb < d.ncb, ∀ oo < d.noo, cop_eng_bat_rule d s cb oo
  max_sol_shed : ∀ bb < d.nbb, ∀ tt < d.ntt, ∀ oo < d.noo, max_sol_shed_rule d s bb tt oo
  max_win_shed : ∀ bb < d.nbb, ∀ tt < d.ntt, ∀ oo < d.noo, max_win_shed_rule d s bb tt oo
  flow : ∀ el < d.nel, ∀ tt < d.ntt, ∀ oo < d.noo, flow_rule d s el tt oo
  max_act_eflow : ∀ el < d.nel, ∀ tt < d.ntt, ∀ oo < d.noo, max_act_eflow_rule d s el tt oo
  min_act_eflow : ∀ el < d.nel, ∀ tt < d.ntt, ∀ oo < d.noo, min_act_eflow_rule d s el tt oo
  max_rea_eflow : ∀ el < d.nel, ∀ tt < d.ntt, ∀ oo < d.noo, max_rea_eflow_rule d s el tt oo
  min_rea_eflow : ∀ el < d.nel, ∀ tt < d.ntt, ∀ oo < d.noo, min_rea_eflow_rule d s el tt oo
  vol_ref : ∀ tt < d.ntt, ∀ oo < d.noo, vol_ref_rule d s tt oo
  inv_stat : ∀ cg < d.ncg, ∀ tt < d.ntt, ∀ oo < d.noo, inv_stat_rule s cg tt oo
  inv_bat : inv_bat_rule d s

/-- The spec's recursive per-step state-of-charge formulation (C3):
`E_{-1} = eini * xb` and `E_t = E_{t-1} + pbc[t] * ec - pbd[t] / ed`;
`engRec ... t` is `E_t`. -/
def engRec (d : InoData) (s : Sol) (cb oo : ℕ) : ℕ → ℚ
  | 0 => (d.cbat cb).eini * s.xb cb
         + s.pbc cb 0 oo * (d.cbat cb).ec - s.pbd cb 0 oo / (d.cbat cb).ed
  | t + 1 => engRec d s cb oo t
         + s.pbc cb (t + 1) oo * (d.cbat cb).ec - s.pbd cb (t + 1) oo / (d.cbat cb).ed

/-! ### Result extraction helpers (`pyomo2dfinv`, `pyomo2dfopr`)

A pandas DataFrame filled by `df.loc[row, col] = v` statements is embedded
as a partial map from (row, column) to the stored value; each `.loc`
assignment is one `dfSet`, and the loop nest becomes a left fold over its
iteration sequence. -/

/-- The empty DataFrame `pd.DataFrame()`. -/
def dfEmpty : ℕ × ℕ → Option ℚ := fun _ => none

/-- `df.loc[rc] = v`. -/
def dfSet (df : ℕ × ℕ → Option ℚ) (rc : ℕ × ℕ) (v : ℚ) : ℕ × ℕ → Option ℚ :=
  fun p => if p = rc then some v else df p

/-- A sequence of `.loc` assignments applied in order. -/
def applyW (init : ℕ × ℕ → Option ℚ) (L : List ((ℕ × ℕ) × ℚ)) : ℕ × ℕ → Option ℚ :=
  L.foldl (fun df e => dfSet df e.1 e.2) init

/-- Python's `round(q, 0)` on an ideal real: round half to even. -/
def pyRound (q : ℚ) : ℤ :=
  if q - ⌊q⌋ < 1 / 2 then ⌊q⌋
  else if 1 / 2 < q - ⌊q⌋ then ⌊q⌋ + 1
  else if ⌊q⌋ % 2 = 0 then ⌊q⌋ else ⌊q⌋ + 1

/-- Python's `round(q, dec)`. -/
def pyRoundDec (dec : ℕ) (q : ℚ) : ℚ := (pyRound (q * 10 ^ dec) : ℚ) / 10 ^ dec

/-- The iteration sequence of the triple loop
`for i in index1: for j in index2: for k in index3`. -/
def loopTriples (n1 n2 n3 : ℕ) : List (ℕ × ℕ × ℕ) :=
  (List.range n1).flatMap fun i =>
    (List.range n2).flatMap fun j =>
      (List.range n3).map fun k => (i, j, k)

/-- Source `pyomo2dfopr`: `df.loc[j * len(index3) + k, i] = round(var[i,j,k].value, dec)`
over the triple loop, starting from the empty frame. -/
def pyomo2dfopr (val : ℕ → ℕ → ℕ → ℚ) (n1 n2 n3 : ℕ) (dec : ℕ) : ℕ × ℕ → Option ℚ :=
  applyW dfEmpty ((loopTriples n1 n2 n3).map fun t =>
    ((t.2.1 * n3 + t.2.2, t.1), pyRoundDec dec (val t.1 t.2.1 t.2.2)))

/-- Source `pyomo2dfinv`: `df.loc[0, i] = var[i].value` over `index1`,
with no rounding. -/
def pyomo2dfinv (val : ℕ → ℚ) (n1 : ℕ) : ℕ × ℕ → Option ℚ :=
  applyW dfEmpty ((List.range n1).map fun i => ((0, i), val i))

/-! ### The `__init__` loading path -/

/-- A raw generator / solar / wind table row as read from the csv, before
the per-unit conversion. -/
structure RawUnitRow where
  bus : ℕ
  pmin : ℚ
  pmax : ℚ
  qmin : ℚ
  qmax : ℚ
  icost : ℚ
  ocost : ℚ

/-- A raw battery table row as read from the csv. -/
structure RawBatRow where
  bus : ℕ
  pmin : ℚ
  pmax : ℚ
  qmin : ℚ
  qmax : ℚ
  emin : ℚ
  emax : ℚ
  eini : ℚ
  ec : ℚ
  ed : ℚ
  icost : ℚ
  ocost : ℚ

/-- The csv tables `inosys.__init__` reads; matrices are lists of rows. -/
structure RawInputs where
  cgen : List RawUnitRow
  egen : List RawUnitRow
  csol : List RawUnitRow
  esol : List RawUnitRow
  cwin : List RawUnitRow
  ewin : List RawUnitRow
  cbat : List RawBatRow
  elin : List LineRow
  pdem : List (List ℚ)
  qdem : List (List ℚ)
  prep : List (List ℚ)
  qrep : List (List ℚ)
  psol : List (List ℚ)
  pwin : List (List ℚ)
  dtim : List ℚ

/-- The scalar parameters of `inosys.__init__`. -/
structure InitParams where
  ref_bus : ℕ
  dshed_cost : ℚ
  rshed_cost : ℚ
  phase : ℚ
  vmin : ℚ
  vmax : ℚ
  sbase : ℚ
  sc_fa : ℚ

/-- Fallback row used for out-of-range indices of a loaded table. -/
def zeroUnitRow : RawUnitRow :=
  { bus := 0, pmin := 0, pmax := 0, qmin := 0, qmax := 0, icost := 0, ocost := 0 }

/-- Fallback battery row used for out-of-range indices. -/
def zeroBatRow : RawBatRow :=
  { bus := 0, pmin := 0, pmax := 0, qmin := 0, qmax := 0, emin := 0, emax := 0,
    eini := 0, ec := 0, ed := 0, icost := 0, ocost := 0 }

/-- Fallback line row used for out-of-range indices. -/
def zeroLineRow : LineRow :=
  { fbus := 0, tbus := 0, ini := 0, res := 0, rea := 0, pmax := 0, qmax := 0 }

/-- Per-unit conversion of a generator / solar / wind row: `__init__`
divides exactly the columns `pmin`, `pmax`, `qmin`, `qmax` by `sbase`. -/
def puUnit (sbase : ℚ) (r : RawUnitRow) : UnitRow :=
  { bus := r.bus, pmin := r.pmin / sbase, pmax := r.pmax / sbase,
    qmin := r.qmin / sbase, qmax := r.qmax / sbase,
    icost := r.icost, ocost := r.ocost }

/-- Per-unit conversion of a battery row: `__init__` divides exactly
`emin`, `emax`, `eini`, `pmin`, `pmax` by `sbase` (not `qmin`, `qmax`,
`ec`, `ed`). -/
def puBat (sbase : ℚ) (r : RawBatRow) : BatRow :=
  { bus := r.bus, pmin := r.pmin / sbase, pmax := r.pmax / sbase,
    qmin := r.qmin, qmax := r.qmax,
    emin := r.emin / sbase, emax := r.emax / sbase, eini := r.eini / sbase,
    ec := r.ec, ed := r.ed, icost := r.icost, ocost := r.ocost }

/-- `inosys.__init__`: reads the tables, converts the listed power / energy
columns to per-unit, and counts components.  The constructor contains no
validation of any bound (in particular nothing checks `pmin <= pmax` or
`qmin <= qmax`); it is a total function into a constructed object. -/
def inosysInit (raw : RawInputs) (p : InitParams) : InoData :=
  { ncg := raw.cgen.length
    neg := raw.egen.length
    ncs := raw.csol.length
    nes := raw.esol.length
    ncw := raw.cwin.length
    new := raw.ewin.length
    ncb := raw.cbat.length
    nel := raw.elin.length
    nbb := (raw.pdem.headD []).length
    ntt := raw.prep.length
    noo := (raw.prep.headD []).length
    cgen := fun i => puUnit p.sbase (raw.cgen.getD i zeroUnitRow)
    egen := fun i => puUnit p.sbase (raw.egen.getD i zeroUnitRow)
    csol := fun i => puUnit p.sbase (raw.csol.getD i zeroUnitRow)
    esol := fun i => puUnit p.sbase (raw.esol.getD i zeroUnitRow)
    cwin := fun i => puUnit p.sbase (raw.cwin.getD i zeroUnitRow)
    ewin := fun i => puUnit p.sbase (raw.ewin.getD i zeroUnitRow)
    cbat := fun i => puBat p.sbase (raw.cbat.getD i zeroBatRow)
    elin := fun i => raw.elin.getD i zeroLineRow
    pdem := fun tt bb => (raw.pdem.getD tt []).getD bb 0
    qdem := fun tt bb => (raw.qdem.getD tt []).getD bb 0
    prep := fun tt oo => (raw.prep.getD tt []).getD oo 0
    qrep := fun tt oo => (raw.qrep.getD tt []).getD oo 0
    psol := fun tt oo => (raw.psol.getD tt []).getD oo 0
    pwin := fun tt oo => (raw.pwin.getD tt []).getD oo 0
    dtim := fun oo => raw.dtim.getD oo 0
    cds := p.dshed_cost
    css := p.rshed_cost
    cws := p.rshed_cost
    sb := p.sbase
    sf := p.sc_fa
    ref_bus := p.ref_bus
    vmin := p.vmin
    vmax := p.vmax
    phase := p.phase }

/-! ### The post-solve epilogue and the result accessors -/

/-- A Python exception as the caller can catch it: its type and message. -/
inductive PyErr where
  | typeError (msg : String)
  | runtimeError (msg : String)
deriving DecidableEq

/-- Termination status reported by the solver adapter. -/
inductive TermStatus where
  | optimal
  | infeasible
  | unbounded
  | maxTimeLimit
  | other
deriving DecidableEq

/-- The objective values the solver adapter loaded back into the model
(`m.z.value` is `None` when no solution was loaded). -/
structure SolverLoad where
  zval : Option ℚ
  invval : Option ℚ
  oprval : Option ℚ

/-- The cost breakdown `solve` stores and writes to `obj.csv`. -/
structure SolveReport where
  total : ℚ
  total_inv : ℚ
  total_opr : ℚ
  written : Bool
deriving DecidableEq

/-- Python's `round(v, 6)` on an optional value: `round(None, 6)` raises a
`TypeError`. -/
def roundVal (v : Option ℚ) : Except PyErr ℚ :=
  match v with
  | some q => Except.ok (pyRoundDec 6 q)
  | none => Except.error (PyErr.typeError "type NoneType does not define round")

/-- The code of `inosys.solve` after `opt.solve` returns: it rounds
`m.z.value`, `m.inv.value`, `m.opr.value`, builds the output tables,
deletes any previous results directory and writes the files.  The solver
result's termination status is bound to `result` and never inspected. -/
def solveEpilogue (status : TermStatus) (vals : SolverLoad) : Except PyErr SolveReport :=
  match roundVal vals.zval with
  | Except.error e => Except.error e
  | Except.ok t =>
    match roundVal vals.invval with
    | Except.error e => Except.error e
    | Except.ok ti =>
      match roundVal vals.oprval with
      | Except.error e => Except.error e
      | Except.ok tp =>
        Except.ok { total := t, total_inv := ti, total_opr := tp, written := true }

/-- The state a result accessor sees: `self.outdir` (empty string until
`solve` ran) and whether that directory exists on disk. -/
structure ResState where
  outdir : String
  outdirExists : Bool

/-- What an accessor's success branch reads from disk. -/
inductive ResPayload where
  | table (file : String)
  | tables (files : List String)
deriving DecidableEq

/-- Python's bare `raise` with no active exception: a `RuntimeError` whose
message is about the exception machinery, not about the situation. -/
def bareRaise : PyErr := PyErr.runtimeError "No active exception to reraise"

/-- `inosys.resCost`. -/
def resCost (st : ResState) : Except PyErr ResPayload :=
  if st.outdir ≠ "" ∧ st.outdirExists = true then Except.ok (ResPayload.table "obj.csv")
  else Except.error bareRaise

/-- `inosys.resWind`. -/
def resWind (st : ResState) : Except PyErr ResPayload :=
  if st.outdir ≠ "" ∧ st.outdirExists = true then
    Except.ok (ResPayload.tables ["cwin_dist.csv", "xw.csv"])
  else Except.error bareRaise

/-- `inosys.resBat`. -/
def resBat (st : ResState) : Except PyErr ResPayload :=
  if st.outdir ≠ "" ∧ st.outdirExists = true then
    Except.ok (ResPayload.tables ["cbat_dist.csv", "xb.csv"])
  else Except.error bareRaise

/-- `inosys.resSolar`. -/
def resSolar (st : ResState) : Except PyErr ResPayload :=
  if st.outdir ≠ "" ∧ st.outdirExists = true then
    Except.ok (ResPayload.tables ["csol_dist.csv", "xs.csv"])
  else Except.error bareRaise

/-- `inosys.resConv`. -/
def resConv (st : ResState) : Except PyErr ResPayload :=
  if st.outdir ≠ "" ∧ st.outdirExists = true then
    Except.ok (ResPayload.tables ["cgen_dist.csv", "xg.csv"])
  else Except.error bareRaise

/-- `inosys.resCurt`. -/
def resCurt (st : ResState) : Except PyErr ResPayload :=
  if st.outdir ≠ "" ∧ st.outdirExists = true then
    Except.ok (ResPayload.tables ["pds.csv", "pss.csv", "pws.csv"])
  else Except.error bareRaise

/-- Substring test on strings (used to inspect exception messages). -/
def strContains (hay needle : String) : Bool :=
  hay.toList.tails.any fun t => needle.toList.isPrefixOf t

/-! ### A small concrete study used to witness the feasibility theorems

Two buses, one period, one scenario; one existing and one candidate unit of
each type, one candidate battery, one out-of-service line.  Demand 2 at the
reference bus is served by the existing solar and wind units; operation-only
mode keeps every candidate at zero. -/

/-- Witness row for generator / solar / wind tables. -/
def wUnitRow : UnitRow :=
  { bus := 0, pmin := 0, pmax := 1, qmin := 0, qmax := 1, icost := 1, ocost := 1 }

/-- Witness battery row. -/
def wBatRow : BatRow :=
  { bus := 0, pmin := 0, pmax := 1, qmin := 0, qmax := 1, emin := 0, emax := 1,
    eini := 0, ec := 1, ed := 1, icost := 1, ocost := 0 }

/-- Witness line row: out of service (`ini = 0`). -/
def wLineRow : LineRow :=
  { fbus := 0, tbus := 1, ini := 0, res := 0, rea := 0, pmax := 1, qmax := 1 }

/-- Witness study data. -/
def d0 : InoData :=
  { ncg := 1, neg := 1, ncs := 1, nes := 1, ncw := 1, new := 1, ncb := 1, nel := 1
    nbb := 2, ntt := 1, noo := 1
    cgen := fun _ => wUnitRow, egen := fun _ => wUnitRow
    csol := fun _ => wUnitRow, esol := fun _ => wUnitRow
    cwin := fun _ => wUnitRow, ewin := fun _ => wUnitRow
    cbat := fun _ => wBatRow, elin := fun _ => wLineRow
    pdem := fun _ bb => if bb = 0 then 2 else 0
    qdem := fun _ _ => 0
    prep := fun _ _ => 1, qrep := fun _ _ => 1
    psol := fun _ _ => 1, pwin := fun _ _ => 1
    dtim := fun _ => 1
    cds := 1, css := 1, cws := 1, sb := 1, sf := 1
    ref_bus := 0, vmin := 0, vmax := 2, phase := 3 }

/-- Operation-only relaxed configuration. -/
def c0 : Cfg := { invest := false, onlyopr := true, commit := false }

/-- Witness solution: existing solar and wind serve the demand, every
candidate and every flow is zero, all voltages are 1. -/
def s0 : Sol :=
  { z := 2, opr := 2, inv := 0, she := 0
    pcg := fun _ _ _ => 0, peg := fun _ _ _ => 0
    qcg := fun _ _ _ => 0, qeg := fun _ _ _ => 0
    pcs := fun _ _ _ => 0, pes := fun _ _ _ => 1
    qcs := fun _ _ _ => 0, qes := fun _ _ _ => 0
    pcw := fun _ _ _ => 0, pew := fun _ _ _ => 1
    qcw := fun _ _ _ => 0, qew := fun _ _ _ => 0
    pbc := fun _ _ _ => 0, pbd := fun _ _ _ => 0, qcd := fun _ _ _ => 0
    pds := fun _ _ _ => 0, pss := fun _ _ _ => 0, pws := fun _ _ _ => 0
    pel := fun _ _ _ => 0, qel := fun _ _ _ => 0
    vol := fun _ _ _ => 1
    cu := fun _ _ _ => 0, eu := fun _ _ _ => 0
    xg := fun _ => 0, xs := fun _ => 0, xw := fun _ => 0, xb := fun _ => 0 }

/-! ### Concrete inputs for the error-handling claims -/

/-- A candidate-generator table row with `pmin > pmax` (5 > 2). -/
def badGenRow : RawUnitRow :=
  { bus := 0, pmin := 5, pmax := 2, qmin := 0, qmax := 1, icost := 1, ocost := 1 }

/-- Raw inputs whose only candidate generator has inverted active bounds. -/
def badRaw : RawInputs :=
  { cgen := [badGenRow], egen := [], csol := [], esol := [], cwin := [], ewin := []
    cbat := [], elin := []
    pdem := [[0, 0]], qdem := [[0, 0]]
    prep := [[1]], qrep := [[1]]
    psol := [[1]], pwin := [[1]]
    dtim := [1] }

/-- The default `__init__` parameters (`sbase = 1`). -/
def defaultParams : InitParams :=
  { ref_bus := 0, dshed_cost := 1000000, rshed_cost := 500, phase := 3,
    vmin := 85 / 100, vmax := 115 / 100, sbase := 1, sc_fa := 1 }

/-! ## Helper lemmas -/

/-- The concrete study is feasible. -/
theorem feas0 : Feasible d0 c0 s0 := by
  constructor <;>
    (try simp only [cost_def_rule, inv_cost_def_rule, opr_cost_def_rule, she_cost_def_rule,
      act_bal_rule, rea_bal_rule, min_act_cgen_rule, min_act_egen_rule, min_act_csol_rule,
      min_act_esol_rule, min_act_cwin_rule, min_act_ewin_rule, min_act_cbat_rule,
      min_act_dbat_rule, max_act_cgen_rule, max_act_egen_rule, max_act_csol_rule,
      max_act_esol_rule, max_act_cwin_rule, max_act_ewin_rule, max_act_cbat_rule,
      max_act_dbat_rule, min_rea_cgen_rule, min_rea_egen_rule, min_rea_csol_rule,
      min_rea_esol_rule, min_rea_cwin_rule, min_rea_ewin_rule, min_rea_bat_rule,
      max_rea_cgen_rule, max_rea_egen_rule, max_rea_csol_rule, max_rea_esol_rule,
      max_rea_cwin_rule, max_rea_ewin_rule, max_rea_bat_rule, min_eng_bat_rule,
      max_eng_bat_rule, cop_eng_bat_rule, max_sol_shed_rule, max_win_shed_rule,
      flow_rule, max_act_eflow_rule, min_act_eflow_rule, max_rea_eflow_rule,
      min_rea_eflow_rule, vol_ref_rule, inv_stat_rule, inv_bat_rule,
      shedDom, commitDom, invDom, binaryDom, unitBoxDom]) <;>
    (try simp [d0, c0, s0, wUnitRow, wBatRow, wLineRow,
      Finset.sum_range_succ, Finset.sum_range_zero]) <;>
    (try intro a ha) <;> (try intro b hb) <;> (try intro c2 hc2) <;>
    (try interval_cases a) <;> (try interval_cases b) <;> (try interval_cases c2) <;>
    norm_num [Finset.sum_range_succ, Finset.sum_range_zero]

/-- A value in a `commitDom` domain is nonnegative. -/
theorem commitDom_nonneg (c : Cfg) (q : ℚ) (h : commitDom c q) : 0 ≤ q := by
  unfold commitDom binaryDom at h
  by_cases hc : c.commit = true
  · rw [if_pos hc] at h
    rcases h with rfl | rfl <;> norm_num
  · rwa [if_neg hc] at h

/-- In operation-only mode the investment domain pins the variable to 0. -/
theorem invDom_onlyopr (c : Cfg) (q : ℚ) (hc : c.onlyopr = true) (h : invDom c q) :
    q = 0 := by
  unfold invDom at h
  rwa [if_pos hc] at h

/-- A sum over `range n` of terms gated by `t ≤ k` with `k < n` is the sum
over `range (k + 1)`. -/
theorem sum_ite_le_range (f : ℕ → ℚ) (n k : ℕ) (hk : k < n) :
    (∑ t ∈ Finset.range n, if t ≤ k then f t else 0)
      = ∑ t ∈ Finset.range (k + 1), f t := by
  rw [← Finset.sum_filter]
  apply Finset.sum_congr
  · ext x
    simp only [Finset.mem_filter, Finset.mem_range]
    omega
  · intro x _
    rfl

/-- The recursive state of charge is the partial running sum. -/
theorem engRec_eq_sum (d : InoData) (s : Sol) (cb oo t : ℕ) :
    engRec d s cb oo t =
      (d.cbat cb).eini * s.xb cb
      + (∑ r ∈ Finset.range (t + 1), s.pbc cb r oo * (d.cbat cb).ec)
      - ∑ r ∈ Finset.range (t + 1), s.pbd cb r oo / (d.cbat cb).ed := by
  induction t with
  | zero => simp [engRec]
  | succ t ih =>
    simp only [engRec]
    rw [ih, Finset.sum_range_succ (fun r => s.pbc cb r oo * (d.cbat cb).ec) (t + 1),
      Finset.sum_range_succ (fun r => s.pbd cb r oo / (d.cbat cb).ed) (t + 1)]
    ring

/-- If no assignment in the list touches key `x`, the fold leaves it as in
the initial frame. -/
theorem applyW_of_notin (L : List ((ℕ × ℕ) × ℚ)) (x : ℕ × ℕ) :
    ∀ init, (∀ e ∈ L, e.1 ≠ x) → applyW init L x = init x := by
  induction L with
  | nil => intro init _; rfl
  | cons e L ih =>
    intro init hx
    have h1 : applyW init (e :: L) = applyW (dfSet init e.1 e.2) L := rfl
    rw [h1, ih _ fun q hq => hx q (List.mem_cons_of_mem _ hq)]
    unfold dfSet
    rw [if_neg (Ne.symm (hx e (List.mem_cons_self e L)))]

/-- If key `x` is assigned in the list and every assignment to it stores
`b`, the fold ends with `some b` at `x`. -/
theorem applyW_eq_some (L : List ((ℕ × ℕ) × ℚ)) (x : ℕ × ℕ) (b : ℚ) :
    ∀ init, (∃ e ∈ L, e.1 = x) → (∀ e ∈ L, e.1 = x → e.2 = b) →
      applyW init L x = some b := by
  induction L with
  | nil =>
    intro init hex _
    rcases hex with ⟨e, he, _⟩
    exact absurd he (List.not_mem_nil e)
  | cons e L ih =>
    intro init hex huniq
    have h1 : applyW init (e :: L) = applyW (dfSet init e.1 e.2) L := rfl
    rw [h1]
    by_cases hL : ∃ q ∈ L, q.1 = x
    · exact ih _ hL fun q hq => huniq q (List.mem_cons_of_mem _ hq)
    · have hkey : e.1 = x := by
        rcases hex with ⟨q, hq, hqx⟩
        rcases List.mem_cons.mp hq with rfl | hq2
        · exact hqx
        · exact absurd ⟨q, hq2, hqx⟩ hL
      have hnone : ∀ q ∈ L, q.1 ≠ x := fun q hq hqx => hL ⟨q, hq, hqx⟩
      rw [applyW_of_notin L x _ hnone]
      unfold dfSet
      rw [if_pos hkey.symm, huniq e (List.mem_cons_self e L) hkey]

/-- Membership in the triple-loop iteration sequence. -/
theorem mem_loopTriples (n1 n2 n3 : ℕ) (t : ℕ × ℕ × ℕ) :
    t ∈ loopTriples n1 n2 n3 ↔ t.1 < n1 ∧ t.2.1 < n2 ∧ t.2.2 < n3 := by
  unfold loopTriples
  simp only [List.mem_flatMap, List.mem_map, List.mem_range]
  constructor
  · rintro ⟨i, hi, j, hj, k, hk, rfl⟩
    exact ⟨hi, hj, hk⟩
  · rintro ⟨h1, h2, h3⟩
    exact ⟨t.1, h1, t.2.1, h2, t.2.2, h3, rfl⟩

/-- The row index `j * n3 + k` with `k < n3` determines `j` and `k`. -/
theorem rowKey_inj (n3 j k j2 k2 : ℕ) (hk : k < n3) (hk2 : k2 < n3)
    (h : j * n3 + k = j2 * n3 + k2) : j = j2 ∧ k = k2 := by
  have hpos : 0 < n3 := Nat.pos_of_ne_zero (by omega)
  have e1 : (j * n3 + k) / n3 = j := by
    rw [mul_comm, Nat.mul_add_div hpos, Nat.div_eq_of_lt hk, Nat.add_zero]
  have e2 : (j2 * n3 + k2) / n3 = j2 := by
    rw [mul_comm, Nat.mul_add_div hpos, Nat.div_eq_of_lt hk2, Nat.add_zero]
  have hj : j = j2 := by rw [← e1, ← e2, h]
  subst hj
  exact ⟨rfl, Nat.add_left_cancel h⟩

/-! ## The claims -/

/-- C1: in every feasible solution of the model built by `inosys.solve`, the
objective value `z` equals `inv + opr`, where `inv` is the scaling factor
`sf` times the summed `icost * pmax * investment-status` of all candidate
conventional, solar, wind and battery units, and `opr` is `sf * sbase`
times the duration-weighted `ocost`-priced dispatch of every dispatchable
type plus the duration-weighted demand-shedding and solar / wind
curtailment penalty terms. -/
theorem objective_is_inv_plus_opr (d : InoData) (c : Cfg) (s : Sol)
    (hf : Feasible d c s) :
    s.z =
      (d.sf * (∑ cg ∈ Finset.range d.ncg, (d.cgen cg).icost * (d.cgen cg).pmax * s.xg cg)
       + d.sf * (∑ cs ∈ Finset.range d.ncs, (d.csol cs).icost * (d.csol cs).pmax * s.xs cs)
       + d.sf * (∑ cw ∈ Finset.range d.ncw, (d.cwin cw).icost * (d.cwin cw).pmax * s.xw cw)
       + d.sf * (∑ cb ∈ Finset.range d.ncb, (d.cbat cb).icost * (d.cbat cb).pmax * s.xb cb))
      + d.sf * d.sb *
        ((∑ cg ∈ Finset.range d.ncg, ∑ tt ∈ Finset.range d.ntt, ∑ oo ∈ Finset.range d.noo,
            d.dtim oo * (d.cgen cg).ocost * s.pcg cg tt oo)
         + (∑ eg ∈ Finset.range d.neg, ∑ tt ∈ Finset.range d.ntt, ∑ oo ∈ Finset.range d.noo,
            d.dtim oo * (d.egen eg).ocost * s.peg eg tt oo)
         + (∑ cs ∈ Finset.range d.ncs, ∑ tt ∈ Finset.range d.ntt, ∑ oo ∈ Finset.range d.noo,
            d.dtim oo * (d.csol cs).ocost * s.pcs cs tt oo)
         + (∑ es ∈ Finset.range d.nes, ∑ tt ∈ Finset.range d.ntt, ∑ oo ∈ Finset.range d.noo,
            d.dtim oo * (d.esol es).ocost * s.pes es tt oo)
         + (∑ cw ∈ Finset.range d.ncw, ∑ tt ∈ Finset.range d.ntt, ∑ oo ∈ Finset.range d.noo,
            d.dtim oo * (d.cwin cw).ocost * s.pcw cw tt oo)
         + (∑ ew ∈ Finset.range d.new, ∑ tt ∈ Finset.range d.ntt, ∑ oo ∈ Finset.range d.noo,
            d.dtim oo * (d.ewin ew).ocost * s.pew ew tt oo)
         + (∑ bb ∈ Finset.range d.nbb, ∑ tt ∈ Finset.range d.ntt, ∑ oo ∈ Finset.range d.noo,
            d.dtim oo * d.cds * d.pdem tt bb * d.prep tt oo * s.pds bb tt oo)
         + (∑ bb ∈ Finset.range d.nbb, ∑ tt ∈ Finset.range d.ntt, ∑ oo ∈ Finset.range d.noo,
            d.dtim oo * d.css * s.pss bb tt oo)
         + (∑ bb ∈ Finset.range d.nbb, ∑ tt ∈ Finset.range d.ntt, ∑ oo ∈ Finset.range d.noo,
            d.dtim oo * d.cws * s.pws bb tt oo)) := by
  have h1 := hf.cost_def
  have h2 := hf.inv_cost_def
  have h3 := hf.opr_cost_def
  unfold cost_def_rule at h1
  unfold inv_cost_def_rule at h2
  unfold opr_cost_def_rule at h3
  rw [h1, h2, h3]

/-- Witness for C1: on the concrete study, the right-hand side of the
objective decomposition evaluates to 2, so the objective is 2. -/
theorem objective_is_inv_plus_opr_witness : s0.z = 2 := by
  have h := objective_is_inv_plus_opr d0 c0 s0 feas0
  rw [h]
  norm_num [d0, s0, wUnitRow, wBatRow, Finset.sum_range_succ]

/-- C2: with `onlyopr = True` the investment variables are bounded to
exactly 0, and consequently every feasible solution dispatches 0 from every
candidate unit — conventional `pcg`, solar `pcs`, wind `pcw`, and battery
charge `pbc` and discharge `pbd` — at every (period, scenario). -/
theorem onlyopr_forces_zero_dispatch (d : InoData) (c : Cfg) (s : Sol)
    (hop : c.onlyopr = true) (hf : Feasible d c s) :
    (∀ cg < d.ncg, s.xg cg = 0) ∧ (∀ cs < d.ncs, s.xs cs = 0) ∧
    (∀ cw < d.ncw, s.xw cw = 0) ∧ (∀ cb < d.ncb, s.xb cb = 0) ∧
    (∀ cg < d.ncg, ∀ tt < d.ntt, ∀ oo < d.noo, s.pcg cg tt oo = 0) ∧
    (∀ cs < d.ncs, ∀ tt < d.ntt, ∀ oo < d.noo, s.pcs cs tt oo = 0) ∧
    (∀ cw < d.ncw, ∀ tt < d.ntt, ∀ oo < d.noo, s.pcw cw tt oo = 0) ∧
    (∀ cb < d.ncb, ∀ tt < d.ntt, ∀ oo < d.noo, s.pbc cb tt oo = 0) ∧
    (∀ cb < d.ncb, ∀ tt < d.ntt, ∀ oo < d.noo, s.pbd cb tt oo = 0) := by
  have hxg : ∀ cg < d.ncg, s.xg cg = 0 :=
    fun cg hcg => invDom_onlyopr c _ hop (hf.dom_xg cg hcg)
  have hxs : ∀ cs < d.ncs, s.xs cs = 0 :=
    fun cs hcs => invDom_onlyopr c _ hop (hf.dom_xs cs hcs)
  have hxw : ∀ cw < d.ncw, s.xw cw = 0 :=
    fun cw hcw => invDom_onlyopr c _ hop (hf.dom_xw cw hcw)
  have hxb : ∀ cb < d.ncb, s.xb cb = 0 :=
    fun cb hcb => invDom_onlyopr c _ hop (hf.dom_xb cb hcb)
  refine ⟨hxg, hxs, hxw, hxb, ?_, ?_, ?_, ?_, ?_⟩
  · intro cg hcg tt htt oo hoo
    have hcu0 : s.cu cg tt oo = 0 := by
      have hle := hf.inv_stat cg hcg tt htt oo hoo
      unfold inv_stat_rule at hle
      rw [hxg cg hcg] at hle
      exact le_antisymm hle (commitDom_nonneg c _ (hf.dom_cu cg hcg tt htt oo hoo))
    have hub := hf.max_act_cgen cg hcg tt htt oo hoo
    unfold max_act_cgen_rule at hub
    rw [hcu0, zero_mul] at hub
    exact le_antisymm hub (hf.dom_pcg cg hcg tt htt oo hoo)
  · intro cs hcs tt htt oo hoo
    have hub := hf.max_act_csol cs hcs tt htt oo hoo
    unfold max_act_csol_rule at hub
    rw [hxs cs hcs, zero_mul] at hub
    exact le_antisymm hub (hf.dom_pcs cs hcs tt htt oo hoo)
  · intro cw hcw tt htt oo hoo
    have hub := hf.max_act_cwin cw hcw tt htt oo hoo
    unfold max_act_cwin_rule at hub
    rw [hxw cw hcw, zero_mul] at hub
    exact le_antisymm hub (hf.dom_pcw cw hcw tt htt oo hoo)
  · intro cb hcb tt htt oo hoo
    have hub := hf.max_act_cbat cb hcb tt htt oo hoo
    unfold max_act_cbat_rule at hub
    rw [hxb cb hcb, zero_mul] at hub
    exact le_antisymm hub (hf.dom_pbc cb hcb tt htt oo hoo)
  · intro cb hcb tt htt oo hoo
    have hub := hf.max_act_dbat cb hcb tt htt oo hoo
    unfold max_act_dbat_rule at hub
    rw [hxb cb hcb, zero_mul] at hub
    exact le_antisymm hub (hf.dom_pbd cb hcb tt htt oo hoo)

/-- Witness for C2 on the concrete operation-only study. -/
theorem onlyopr_forces_zero_dispatch_witness :
    s0.xg 0 = 0 ∧ s0.xb 0 = 0 ∧ s0.pcg 0 0 0 = 0 ∧ s0.pcs 0 0 0 = 0 ∧
    s0.pcw 0 0 0 = 0 ∧ s0.pbc 0 0 0 = 0 ∧ s0.pbd 0 0 0 = 0 := by
  have h := onlyopr_forces_zero_dispatch d0 c0 s0 rfl feas0
  refine ⟨h.1 0 (by norm_num [d0]), h.2.2.2.1 0 (by norm_num [d0]), ?_, ?_, ?_, ?_, ?_⟩
  · exact h.2.2.2.2.1 0 (by norm_num [d0]) 0 (by norm_num [d0]) 0 (by norm_num [d0])
  · exact h.2.2.2.2.2.1 0 (by norm_num [d0]) 0 (by norm_num [d0]) 0 (by norm_num [d0])
  · exact h.2.2.2.2.2.2.1 0 (by norm_num [d0]) 0 (by norm_num [d0]) 0 (by norm_num [d0])
  · exact h.2.2.2.2.2.2.2.1 0 (by norm_num [d0]) 0 (by norm_num [d0]) 0 (by norm_num [d0])
  · exact h.2.2.2.2.2.2.2.2 0 (by norm_num [d0]) 0 (by norm_num [d0]) 0 (by norm_num [d0])

/-- C3: for each battery and scenario, with the investment value and any
nonnegative charge / discharge sequences fixed, the running-sum
state-of-charge constraints of the code (`min_eng_bat_rule` and
`max_eng_bat_rule` for every period) hold exactly when the spec's recursive
per-step formulation (`engRec` within `[xb * emin, xb * emax]` for every
period) holds: the two formulations are algebraically equivalent. -/
theorem running_sum_iff_recursive (d : InoData) (s : Sol) (cb oo : ℕ) :
    ((∀ tt < d.ntt, min_eng_bat_rule d s cb tt oo) ∧
     (∀ tt < d.ntt, max_eng_bat_rule d s cb tt oo)) ↔
    (∀ tt < d.ntt,
      s.xb cb * (d.cbat cb).emin ≤ engRec d s cb oo tt ∧
      engRec d s cb oo tt ≤ s.xb cb * (d.cbat cb).emax) := by
  have key : ∀ tt < d.ntt,
      (d.cbat cb).eini * s.xb cb
      + (∑ t ∈ Finset.range d.ntt, if t ≤ tt then s.pbc cb t oo * (d.cbat cb).ec else 0)
      - (∑ t ∈ Finset.range d.ntt, if t ≤ tt then s.pbd cb t oo / (d.cbat cb).ed else 0)
      = engRec d s cb oo tt := by
    intro tt htt
    rw [sum_ite_le_range _ _ _ htt, sum_ite_le_range _ _ _ htt, engRec_eq_sum]
  constructor
  · rintro ⟨hmin, hmax⟩ tt htt
    have h1 := hmin tt htt
    have h2 := hmax tt htt
    unfold min_eng_bat_rule at h1
    unfold max_eng_bat_rule at h2
    rw [key tt htt] at h1 h2
    exact ⟨h1, h2⟩
  · intro h
    constructor <;> intro tt htt
    · unfold min_eng_bat_rule
      rw [ge_iff_le, key tt htt]
      exact (h tt htt).1
    · unfold max_eng_bat_rule
      rw [key tt htt]
      exact (h tt htt).2

/-- C4: in every feasible solution, each candidate battery is closed-cycle
within each scenario on its own: summed over the full horizon, charge
energy `pbc * ec` equals discharge energy `pbd / ed`, separately for every
(battery, scenario) with no coupling across scenarios. -/
theorem battery_closed_cycle (d : InoData) (c : Cfg) (s : Sol)
    (hf : Feasible d c s) :
    ∀ cb < d.ncb, ∀ oo < d.noo,
      (∑ t ∈ Finset.range d.ntt, s.pbc cb t oo * (d.cbat cb).ec)
        = ∑ t ∈ Finset.range d.ntt, s.pbd cb t oo / (d.cbat cb).ed := by
  intro cb hcb oo hoo
  have h := hf.cop_eng_bat cb hcb oo hoo
  unfold cop_eng_bat_rule at h
  exact h

/-- Witness for C4 on the concrete study. -/
theorem battery_closed_cycle_witness :
    (∑ t ∈ Finset.range d0.ntt, s0.pbc 0 t 0 * (d0.cbat 0).ec)
      = ∑ t ∈ Finset.range d0.ntt, s0.pbd 0 t 0 / (d0.cbat 0).ed :=
  battery_closed_cycle d0 c0 s0 feas0 0 (by norm_num [d0]) 0 (by norm_num [d0])

/-- C5: in every feasible solution, a candidate conventional unit's
per-period commitment status never exceeds its horizon-wide investment
status: `cu[cg,tt,oo] <= xg[cg]` for every candidate, period, scenario. -/
theorem commitment_le_investment (d : InoData) (c : Cfg) (s : Sol)
    (hf : Feasible d c s) :
    ∀ cg < d.ncg, ∀ tt < d.ntt, ∀ oo < d.noo, s.cu cg tt oo ≤ s.xg cg := by
  intro cg hcg tt htt oo hoo
  have h := hf.inv_stat cg hcg tt htt oo hoo
  unfold inv_stat_rule at h
  exact h

/-- Witness for C5 on the concrete study. -/
theorem commitment_le_investment_witness : s0.cu 0 0 0 ≤ s0.xg 0 :=
  commitment_le_investment d0 c0 s0 feas0 0 (by norm_num [d0]) 0 (by norm_num [d0])
    0 (by norm_num [d0])

/-- C10: a line whose in-service flag is 0 carries no active or reactive
flow in any feasible solution, and because `flow_rule` is imposed on every
line regardless of the flag, the voltage magnitudes at its two endpoint
buses are equal there. -/
theorem out_of_service_line_zero_flow (d : InoData) (c : Cfg) (s : Sol)
    (hf : Feasible d c s) (el tt oo : ℕ)
    (hel : el < d.nel) (htt : tt < d.ntt) (hoo : oo < d.noo)
    (hini : (d.elin el).ini = 0) :
    s.pel el tt oo = 0 ∧ s.qel el tt oo = 0 ∧
    s.vol (d.elin el).fbus tt oo = s.vol (d.elin el).tbus tt oo := by
  have h1 := hf.max_act_eflow el hel tt htt oo hoo
  have h2 := hf.min_act_eflow el hel tt htt oo hoo
  have h3 := hf.max_rea_eflow el hel tt htt oo hoo
  have h4 := hf.min_rea_eflow el hel tt htt oo hoo
  have h5 := hf.flow el hel tt htt oo hoo
  unfold max_act_eflow_rule at h1
  unfold min_act_eflow_rule at h2
  unfold max_rea_eflow_rule at h3
  unfold min_rea_eflow_rule at h4
  unfold flow_rule at h5
  rw [hini, mul_zero] at h1 h2 h3 h4
  have hp : s.pel el tt oo = 0 := le_antisymm h1 h2
  have hq : s.qel el tt oo = 0 := le_antisymm h3 h4
  refine ⟨hp, hq, ?_⟩
  rw [hp, hq, mul_zero, mul_zero, add_zero] at h5
  linarith

/-- Witness for C10 on the concrete study (its line has `ini = 0`). -/
theorem out_of_service_line_zero_flow_witness :
    s0.pel 0 0 0 = 0 ∧ s0.qel 0 0 0 = 0 ∧
    s0.vol (d0.elin 0).fbus 0 0 = s0.vol (d0.elin 0).tbus 0 0 :=
  out_of_service_line_zero_flow d0 c0 s0 feas0 0 0 0 (by norm_num [d0])
    (by norm_num [d0]) (by norm_num [d0]) (by norm_num [d0, wLineRow])

/-- C6 (supporting the code defect): the epilogue `inosys.solve` runs after
the solver returns is oblivious to the termination status — it produces the
same extraction for any two statuses — and on an infeasible status whose
model still carries loaded values it extracts, rounds and writes the
results exactly as on success instead of surfacing a distinct condition. -/
theorem epilogue_ignores_solver_status :
    (∀ st1 st2 : TermStatus, ∀ vals : SolverLoad,
      solveEpilogue st1 vals = solveEpilogue st2 vals) ∧
    solveEpilogue TermStatus.infeasible { zval := some 2, invval := some 0, oprval := some 2 }
      = Except.ok { total := 2, total_inv := 0, total_opr := 2, written := true } := by
  constructor
  · intro st1 st2 vals
    rfl
  · norm_num [solveEpilogue, roundVal, pyRoundDec, pyRound]

/-- C7 counterexample: on the freshly-constructed state (`outdir` still the
empty string), `resCost` raises the bare-`raise` `RuntimeError`; its type is
the generic `RuntimeError` and its message ("No active exception to
re-raise") identifies neither missing results nor a needed solve, so the
raised condition is not a distinct, precise "no results available"
condition (the explanatory sentence is only printed to stdout). -/
theorem resCost_raises_generic_error :
    resCost { outdir := "", outdirExists := false } = Except.error bareRaise ∧
    bareRaise = PyErr.runtimeError "No active exception to reraise" ∧
    strContains "No active exception to reraise" "result" = false ∧
    strContains "No active exception to reraise" "solve" = false := by
  refine ⟨by simp [resCost], rfl, by decide, by decide⟩

/-- C7 (amended): calling any result accessor before a successful solve
(`outdir` still empty) always fails — never succeeding and never returning
stale data — but the exception raised is the same generic bare-`raise`
`RuntimeError` for all six accessors. -/
theorem accessors_fail_before_solve (st : ResState) (h : st.outdir = "") :
    resCost st = Except.error bareRaise ∧ resWind st = Except.error bareRaise ∧
    resBat st = Except.error bareRaise ∧ resSolar st = Except.error bareRaise ∧
    resConv st = Except.error bareRaise ∧ resCurt st = Except.error bareRaise := by
  unfold resCost resWind resBat resSolar resConv resCurt
  simp [h]

/-- Witness for the amended C7 at a concrete pre-solve state. -/
theorem accessors_fail_before_solve_witness :
    resCurt { outdir := "", outdirExists := true } = Except.error bareRaise :=
  (accessors_fail_before_solve { outdir := "", outdirExists := true } rfl).2.2.2.2.2

/-- C8 (supporting the code defect): `inosys.__init__` applied to a
candidate-generator table whose only row has `pmin = 5 > 2 = pmax`
completes and builds the study object carrying the inverted bounds into
model construction; no validation rejects the input. -/
theorem init_accepts_inverted_bounds :
    ((inosysInit badRaw defaultParams).cgen 0).pmin = 5 ∧
    ((inosysInit badRaw defaultParams).cgen 0).pmax = 2 ∧
    ((inosysInit badRaw defaultParams).cgen 0).pmax
      < ((inosysInit badRaw defaultParams).cgen 0).pmin ∧
    (inosysInit badRaw defaultParams).ncg = 1 := by
  norm_num [inosysInit, badRaw, badGenRow, defaultParams, puUnit, List.getD]

/-- C9: `pyomo2dfopr` places `round(value, 6)` at row
`j * (number of scenarios) + k` and column `i` — within each period the
scenario index varies fastest — while `pyomo2dfinv` reports the investment
values unrounded in the single row 0 with one column per candidate unit. -/
theorem result_extraction_layout (val : ℕ → ℕ → ℕ → ℚ) (ival : ℕ → ℚ)
    (n1 n2 n3 m1 i j k i2 : ℕ)
    (hi : i < n1) (hj : j < n2) (hk : k < n3) (hi2 : i2 < m1) :
    pyomo2dfopr val n1 n2 n3 6 (j * n3 + k, i) = some (pyRoundDec 6 (val i j k)) ∧
    pyomo2dfinv ival m1 (0, i2) = some (ival i2) ∧
    (∀ r c2, pyomo2dfinv ival m1 (r, c2) ≠ none → r = 0 ∧ c2 < m1) := by
  refine ⟨?_, ?_, ?_⟩
  · unfold pyomo2dfopr
    apply applyW_eq_some
    · refine ⟨((j * n3 + k, i), pyRoundDec 6 (val i j k)), ?_, rfl⟩
      exact List.mem_map.mpr ⟨(i, j, k), (mem_loopTriples n1 n2 n3 (i, j, k)).mpr ⟨hi, hj, hk⟩, rfl⟩
    · rintro e he hkey
      rcases List.mem_map.mp he with ⟨t, ht, rfl⟩
      have hb := (mem_loopTriples n1 n2 n3 t).mp ht
      have h1 : t.2.1 * n3 + t.2.2 = j * n3 + k := congrArg Prod.fst hkey
      have h2 : t.1 = i := congrArg Prod.snd hkey
      obtain ⟨hjj, hkk⟩ := rowKey_inj n3 t.2.1 t.2.2 j k hb.2.2 hk h1
      rw [h2, hjj, hkk]
  · unfold pyomo2dfinv
    apply applyW_eq_some
    · exact ⟨((0, i2), ival i2), List.mem_map.mpr ⟨i2, List.mem_range.mpr hi2, rfl⟩, rfl⟩
    · rintro e he hkey
      rcases List.mem_map.mp he with ⟨a, ha, rfl⟩
      have h2 : a = i2 := congrArg Prod.snd hkey
      rw [h2]
  · intro r c2 hne
    by_contra hcon
    rw [not_and_or] at hcon
    apply hne
    unfold pyomo2dfinv
    rw [applyW_of_notin]
    · rfl
    · rintro e he hEq
      rcases List.mem_map.mp he with ⟨a, ha, rfl⟩
      have hr : (0 : ℕ) = r := congrArg Prod.fst hEq
      have hc2 : a = c2 := congrArg Prod.snd hEq
      rcases hcon with hcon | hcon
      · exact hcon hr.symm
      · exact hcon (hc2 ▸ List.mem_range.mp ha)

/-- Witness for C9: with one unit, two periods and two scenarios of constant
value 1/3, the operational cell (row 1*2+1, column 0) holds the rounded
333333/1000000 while the investment cell (row 0, column 0) holds 1/3
exactly. -/
theorem result_extraction_layout_witness :
    pyomo2dfopr (fun _ _ _ => (1 : ℚ) / 3) 1 2 2 6 (3, 0) = some (333333 / 1000000) ∧
    pyomo2dfinv (fun _ => (1 : ℚ) / 3) 1 (0, 0) = some (1 / 3) := by
  have h := result_extraction_layout (fun _ _ _ => (1 : ℚ) / 3) (fun _ => (1 : ℚ) / 3)
    1 2 2 1 0 1 1 0 (by norm_num) (by norm_num) (by norm_num) (by norm_num)
  have h1 := h.1
  have h2 := h.2.1
  norm_num [pyRoundDec, pyRound] at h1
  exact ⟨h1, h2⟩

end PyEPlan
